import Mathlib

/-!
Shallow embedding of the `env-core` resolution engine (`EnvKit.ts`) and of the
single-flight expiring cache used by the Azure Key Vault loader
(`AzureSecretsConfigLoader`), together with theorems settling the spec claims.

Raw loader values and parsed values are modelled by a common type `JSValue` of
JavaScript primitives, so that the JavaScript truthiness tests of the source
(`data?.value`, `!value`, `data.value && ...`) can be embedded faithfully.
Host-level exception propagation (a loader or parser that *throws* rather than
returning a result object) is modelled by an outer `Except EnvError`, while the
`IResult` success/failure values of the `@luolapeikko/result-option` library are
modelled by the inner `IResult` type.
-/

namespace EnvCore

/-- JavaScript primitive values, used both as raw loader values and as parsed
configuration values. -/
inductive JSValue where
  | jsStr (s : String)
  | jsNum (n : Int)
  | jsBool (b : Bool)
deriving DecidableEq, Repr

/-- JavaScript truthiness on the primitives: `""`, `0` and `false` are falsy. -/
def jsTruthy : JSValue → Bool
  | .jsStr s => !(s == "")
  | .jsNum n => !(n == 0)
  | .jsBool b => b

/-- Errors: `generic` models an arbitrary `Error`, `variableLookup` models the
`VariableLookupError` class (which carries the looked-up key). -/
inductive EnvError where
  | generic (msg : String)
  | variableLookup (key : String) (msg : String)
deriving DecidableEq, Repr

/-- The `message` property of an error. -/
def errMessage : EnvError → String
  | .generic m => m
  | .variableLookup _ m => m

/-- `IResult` of `@luolapeikko/result-option`: explicit success/failure value. -/
inductive IResult (α : Type) where
  | ok (a : α)
  | err (e : EnvError)
deriving DecidableEq, Repr

/-- `LoaderValueResult`: the `{path, value}` object a loader may return.
`value` is `RawValue | undefined`, hence an `Option`. -/
structure LoaderValueResult where
  path : String
  value : Option JSValue
deriving DecidableEq, Repr

/-- The loader contract (`IConfigLoader`): a stable `loaderType` identifier and
`getValueResult(key) → Result<{path, value} | undefined, Error>`. The outer
`Except` models a loader invocation that throws at the host level instead of
returning; `.ok r` is a normal return of the `IResult` `r`. -/
structure IConfigLoader where
  loaderType : String
  getValueResult : String → Except EnvError (IResult (Option LoaderValueResult))

/-- Log format modes of a key spec; `masked` is the source's `'partial'`. -/
inductive LogFormat where
  | plain
  | masked
  | hidden
deriving DecidableEq, Repr

/-- Parser contract for one key: `parse` (outer `Except` models a parser call
that throws), `toStr` models `toString`, and `toLogString`. -/
structure KeyParser where
  parse : JSValue → Except EnvError (IResult JSValue)
  toStr : JSValue → String
  toLogString : JSValue → LogFormat → String

/-- Key Spec: per-key schema entry. `defaultValue` models the optional
`Loadable` default: `none` when the schema field is absent, `some d` when the
field is set and resolves (possibly lazily, at call time) to `d : Option
JSValue` (`some` = a defined value, `none` = the lazy default resolved to
`undefined`). -/
structure KeySpec where
  parser : KeyParser
  defaultValue : Option (Option JSValue) := none
  notFoundError : Bool := false
  logFormat : LogFormat := .plain

inductive LoggingMode where
  | single
  | always
deriving DecidableEq, Repr

inductive LoaderErrorMode where
  | throws
  | log
deriving DecidableEq, Repr

/-- `EnvKitOptions`: the source compares `loggingMode === 'always'` and
`loaderError === 'throws'`, so unset options (`none`) behave as the defaults
`'single'` and `'log'`. `nspace` models the `namespace` option. -/
structure EnvKitOptions where
  nspace : Option String := none
  loggingMode : Option LoggingMode := none
  loaderError : Option LoaderErrorMode := none

/-- An `EnvKit` instance: schema, loader chain (in caller-supplied order) and
options. -/
structure EnvKit where
  schema : String → Option KeySpec
  loaders : List IConfigLoader
  options : EnvKitOptions

/-- `InferValueResult` / resolution result: `{loaderType?, path?, value?}`. -/
structure InferValueResult where
  loaderType : Option String
  path : Option String
  value : Option JSValue
deriving DecidableEq, Repr

/-- `#getLoaderEntry`: invoke the loader and normalise `Ok(undefined)` to an
`Ok` carrying `value: undefined` and `path: String(lookupKey)`; tag the result
with the loader's `loaderType`. The engine has no try/catch, so a host-level
throw from `getValueResult` propagates (stays `.error`). -/
def getLoaderEntry (loader : IConfigLoader) (lookupKey : String) :
    Except EnvError (IResult InferValueResult) :=
  match loader.getValueResult lookupKey with
  | .error e => .error e
  | .ok (.err e) => .ok (.err e)
  | .ok (.ok none) => .ok (.ok ⟨some loader.loaderType, some lookupKey, none⟩)
  | .ok (.ok (some d)) => .ok (.ok ⟨some loader.loaderType, some d.path, d.value⟩)

/-- Outcome of the loader loop inside `#getEntry`: a propagated host-level
throw, an early `return` of an `IResult`, or falling through all loaders. -/
inductive LoopOut where
  | thrown (e : EnvError)
  | returned (r : IResult InferValueResult)
  | fallthrough
deriving DecidableEq, Repr

/-- Result of the loader loop: the outcome, how many loaders had their
`getValueResult` invoked, and the loader-error warnings logged (in order). -/
structure LoopResult where
  out : LoopOut
  invoked : Nat
  warnings : List String
deriving DecidableEq, Repr

/-- The `for await` loop of `#getEntry` over `#getResultIterator`:
for each loader in order, invoke it (`#getLoaderEntry`); under
`loaderError === 'throws'` an `Err` result is returned immediately; otherwise
an `Err` is logged as a warning and treated as no value; a defined, truthy
value is parsed and the loop returns; anything else continues. -/
def getEntryLoop (opts : EnvKitOptions)
    (parse : JSValue → Except EnvError (IResult JSValue))
    (lookupKey : String) : List IConfigLoader → LoopResult
  | [] => ⟨.fallthrough, 0, []⟩
  | loader :: rest =>
    match getLoaderEntry loader lookupKey with
    | .error e => ⟨.thrown e, 1, []⟩
    | .ok (.err e) =>
      if opts.loaderError == some .throws then
        ⟨.returned (.err e), 1, []⟩
      else
        let r := getEntryLoop opts parse lookupKey rest
        ⟨r.out, r.invoked + 1,
          ("Loader error: " ++ lookupKey ++ " " ++ errMessage e) :: r.warnings⟩
    | .ok (.ok data) =>
      match data.value with
      | some v =>
        if jsTruthy v then
          match parse v with
          | .error e => ⟨.thrown e, 1, []⟩
          | .ok (.err pe) => ⟨.returned (.err pe), 1, []⟩
          | .ok (.ok pv) =>
            ⟨.returned (.ok ⟨data.loaderType, data.path, some pv⟩), 1, []⟩
        else
          let r := getEntryLoop opts parse lookupKey rest
          ⟨r.out, r.invoked + 1, r.warnings⟩
      | none =>
        let r := getEntryLoop opts parse lookupKey rest
        ⟨r.out, r.invoked + 1, r.warnings⟩

/-- Resolving the schema default at call time: absent field resolves to
`undefined`; a set field resolves its `Loadable` to the carried value. -/
def resolveDefault : Option (Option JSValue) → Option JSValue
  | none => none
  | some d => d

/-- Outcome of `#getEntry`: result (outer `Except` = propagated host throw),
number of loaders invoked, loader-error warnings. -/
structure CoreOutcome where
  result : Except EnvError (IResult InferValueResult)
  invoked : Nat
  warnings : List String

/-- `#getEntry`: schema lookup, loader loop, then default / required /
soft-missing handling. -/
def getEntryCore (kit : EnvKit) (lookupKey : String) : CoreOutcome :=
  match kit.schema lookupKey with
  | none =>
    ⟨.ok (.err (.variableLookup lookupKey
        ("Key \"" ++ lookupKey ++ "\" is not defined in schema"))), 0, []⟩
  | some spec =>
    let r := getEntryLoop kit.options spec.parser.parse lookupKey kit.loaders
    match r.out with
    | .thrown e => ⟨.error e, r.invoked, r.warnings⟩
    | .returned res => ⟨.ok res, r.invoked, r.warnings⟩
    | .fallthrough =>
      match resolveDefault spec.defaultValue with
      | some d =>
        ⟨.ok (.ok ⟨some "defaultValue", some ("key:" ++ lookupKey), some d⟩),
          r.invoked, r.warnings⟩
      | none =>
        if spec.notFoundError then
          ⟨.ok (.err (.variableLookup lookupKey
              ("Missing required value for key: " ++ lookupKey))),
            r.invoked, r.warnings⟩
        else
          ⟨.ok (.ok ⟨none, some lookupKey, none⟩), r.invoked, r.warnings⟩

/-- `#printValue`: empty for `hidden`, ` [undefined]` for a falsy value
(JavaScript `!value`), otherwise the parser's log rendering. -/
def printValue (value : Option JSValue) (spec : KeySpec) : String :=
  if spec.logFormat == .hidden then ""
  else
    match value with
    | some v =>
      if jsTruthy v then " [" ++ spec.parser.toLogString v spec.logFormat ++ "]"
      else " [undefined]"
    | none => " [undefined]"

/-- Interpolating a possibly-undefined string in a template literal. -/
def jsInterp : Option String → String
  | some s => s
  | none => "undefined"

/-- The log line rendered by `#printLog`. -/
def renderLog (opts : EnvKitOptions) (key : String) (data : InferValueResult)
    (spec : KeySpec) : String :=
  let ns := match opts.nspace with
    | some n => ":" ++ n
    | none => ""
  match data.loaderType with
  | some lt =>
    "ConfigVariables" ++ ns ++ "[" ++ lt ++ "]: " ++ key
      ++ printValue data.value spec ++ " from " ++ jsInterp data.path
  | none => "ConfigVariables" ++ ns ++ ": " ++ key ++ printValue data.value spec

/-- `#printLog`: emit when `loggingMode === 'always'` or when the rendered line
differs from the seen-log map entry; on emission the map is updated. Returns
the updated map and the emitted lines (empty or a singleton). -/
def printLog (opts : EnvKitOptions) (key : String) (data : InferValueResult)
    (spec : KeySpec) (seen : String → Option String) :
    (String → Option String) × List String :=
  let output := renderLog opts key data spec
  if opts.loggingMode == some .always || !(seen key == some output) then
    (fun k => if k == key then some output else seen k, [output])
  else
    (seen, [])

/-- The dedup-logging side effect of the public `getEntry`: `#printLog` runs
only on an `Ok` result (`inspectOk`). -/
def printLines (kit : EnvKit) (seen : String → Option String) (key : String) :
    (String → Option String) × List String :=
  match (getEntryCore kit key).result, kit.schema key with
  | .ok (.ok data), some spec => printLog kit.options key data spec seen
  | _, _ => (seen, [])

/-- Full observable outcome of one public `getEntry` call. -/
structure EntryOutcome where
  result : Except EnvError (IResult InferValueResult)
  invoked : Nat
  warnings : List String
  infoLog : List String
  seenLog : String → Option String

/-- Public `getEntry`: `#getEntry` followed by the dedup logger on `Ok`. -/
def getEntry (kit : EnvKit) (seen : String → Option String) (key : String) :
    EntryOutcome :=
  let c := getEntryCore kit key
  let pl := printLines kit seen key
  ⟨c.result, c.invoked, c.warnings, pl.2, pl.1⟩

/-- Public `get`: `getEntry` projected to the value. -/
def get (kit : EnvKit) (seen : String → Option String) (key : String) :
    Except EnvError (IResult (Option JSValue)) :=
  match (getEntry kit seen key).result with
  | .error e => .error e
  | .ok (.err e) => .ok (.err e)
  | .ok (.ok data) => .ok (.ok data.value)

/-- Public `getString`: `Ok(data.value && schema.parser.toString(data.value))`.
JavaScript `&&` returns the left operand when it is falsy, so a falsy present
value is returned unstringified. -/
def getString (kit : EnvKit) (seen : String → Option String) (key : String) :
    Except EnvError (IResult (Option JSValue)) :=
  match (getEntry kit seen key).result with
  | .error e => .error e
  | .ok (.err e) => .ok (.err e)
  | .ok (.ok data) =>
    let toStr := match kit.schema key with
      | some sp => sp.parser.toStr
      | none => fun _ => ""
    .ok (.ok (match data.value with
      | none => none
      | some v => if jsTruthy v then some (.jsStr (toStr v)) else some v))

/-!
Single-flight expiring cache of `AzureSecretsConfigLoader.getRawValue`.

The loader keeps `valuePromises : ExpireCache<Promise<IResult<...>>>`, keyed by
the mapped secret name. `getRawValue` checks the cache; on a miss it starts one
remote call (`#handleLoaderPromise`), registers the promise, and — when the
promise settles with an error — schedules a `setTimeout` deleting the entry
after `errExpireMs ?? 60000` milliseconds. There is no suspension point between
the cache `get` and the `set` (cooperative single-threaded model), so the
check-then-register sequence is modelled as one atomic step.

Promises are modelled by numeric identifiers; `remoteCalls` records, in order,
the secret key of every remote call actually started.
-/

/-- Options of the Azure loader relevant to the cache. -/
structure AzOptions where
  url : String
  disabled : Bool := false
  errExpireMs : Option Nat := none

/-- State of the loader's single-flight cache machine. -/
structure AzState where
  now : Nat
  cache : String → Option Nat
  failedIds : List Nat
  timers : List (String × Nat)
  nextId : Nat
  remoteCalls : List String

/-- What one `getRawValue` call hands back: an immediate `Ok {path: url,
value: undefined}` (key unmapped / empty / loader disabled) or a promise. -/
inductive AzReturn where
  | immediate (r : IResult LoaderValueResult)
  | promise (id : Nat)
deriving DecidableEq, Repr

/-- `getRawValue`: map the lookup key through `keySecretMap`; `!key` or
`disabled` short-circuits without touching the cache; otherwise reuse the live
cache entry for the secret key, or start exactly one remote call and register
its promise. -/
def getRawValue (opts : AzOptions) (keySecretMap : String → Option String)
    (lookupKey : String) (s : AzState) : AzReturn × AzState :=
  match keySecretMap lookupKey with
  | none => (.immediate (.ok ⟨opts.url, none⟩), s)
  | some key =>
    if key == "" || opts.disabled then
      (.immediate (.ok ⟨opts.url, none⟩), s)
    else
      match s.cache key with
      | some p => (.promise p, s)
      | none =>
        (.promise s.nextId,
          { s with
            cache := fun k => if k == key then some s.nextId else s.cache k,
            nextId := s.nextId + 1,
            remoteCalls := s.remoteCalls ++ [key] })

/-- The registered promise `p` for secret `key` settles with an error at the
current time: the entry is *not* removed; a deletion is scheduled after
`errExpireMs ?? 60000` milliseconds (the `setTimeout` in `inspectErr`). -/
def settleFailure (opts : AzOptions) (key : String) (p : Nat) (s : AzState) :
    AzState :=
  { s with
    failedIds := p :: s.failedIds,
    timers := s.timers ++ [(key, s.now + (opts.errExpireMs.getD 60000))] }

/-- Time passes. -/
def azAdvance (d : Nat) (s : AzState) : AzState :=
  { s with now := s.now + d }

/-- A scheduled deletion timer fires: only enabled once its deadline has been
reached; it then deletes the cache entry for its key. -/
def fireTimer (key : String) (deadline : Nat) (s : AzState) : AzState :=
  if (key, deadline) ∈ s.timers ∧ deadline ≤ s.now then
    { s with
      cache := fun k => if k == key then none else s.cache k,
      timers := s.timers.erase (key, deadline) }
  else s

/-- `n` successive `getRawValue` calls for the same lookup key, with no promise
settlement or timer event interleaved (all issued before the first underlying
remote call resolves). -/
def repeatLookups (opts : AzOptions) (keySecretMap : String → Option String)
    (lookupKey : String) : Nat → AzState → List AzReturn × AzState
  | 0, s => ([], s)
  | n + 1, s =>
    let rs := getRawValue opts keySecretMap lookupKey s
    let rest := repeatLookups opts keySecretMap lookupKey n rs.2
    (rs.1 :: rest.1, rest.2)

/-!  Helper lemmas about the loader loop. -/

/-- A loader invocation at `lookupKey` that the loop passes over: it returns
normally with no defined truthy value (or an `Err` while the engine is not in
`'throws'` mode). -/
def loaderSkips (opts : EnvKitOptions) (lookupKey : String)
    (loader : IConfigLoader) : Bool :=
  match loader.getValueResult lookupKey with
  | .error _ => false
  | .ok (.err _) => !(opts.loaderError == some .throws)
  | .ok (.ok none) => true
  | .ok (.ok (some d)) =>
    match d.value with
    | none => true
    | some v => !(jsTruthy v)

theorem loop_cons_skip (opts : EnvKitOptions)
    (parse : JSValue → Except EnvError (IResult JSValue)) (key : String)
    (L : IConfigLoader) (rest : List IConfigLoader)
    (h : loaderSkips opts key L = true) :
    (getEntryLoop opts parse key (L :: rest)).out
      = (getEntryLoop opts parse key rest).out ∧
    (getEntryLoop opts parse key (L :: rest)).invoked
      = (getEntryLoop opts parse key rest).invoked + 1 ∧
    ∀ w ∈ (getEntryLoop opts parse key rest).warnings,
      w ∈ (getEntryLoop opts parse key (L :: rest)).warnings := by
  unfold loaderSkips at h
  cases hgv : L.getValueResult key with
  | error e => rw [hgv] at h; simp at h
  | ok r =>
    cases r with
    | err e =>
      rw [hgv] at h
      simp only [Bool.not_eq_true'] at h
      simp only [getEntryLoop, getLoaderEntry, hgv, h]
      refine ⟨rfl, rfl, fun w hw => List.mem_cons_of_mem _ hw⟩
    | ok d =>
      cases d with
      | none => simp [getEntryLoop, getLoaderEntry, hgv]
      | some lv =>
        obtain ⟨p, val⟩ := lv
        rw [hgv] at h
        cases val with
        | none => simp [getEntryLoop, getLoaderEntry, hgv]
        | some v =>
          simp only [Bool.not_eq_true'] at h
          simp [getEntryLoop, getLoaderEntry, hgv, h]

theorem loop_append_skip (opts : EnvKitOptions)
    (parse : JSValue → Except EnvError (IResult JSValue)) (key : String)
    (pre rest : List IConfigLoader)
    (hpre : ∀ l ∈ pre, loaderSkips opts key l = true) :
    (getEntryLoop opts parse key (pre ++ rest)).out
      = (getEntryLoop opts parse key rest).out ∧
    (getEntryLoop opts parse key (pre ++ rest)).invoked
      = pre.length + (getEntryLoop opts parse key rest).invoked ∧
    ∀ w ∈ (getEntryLoop opts parse key rest).warnings,
      w ∈ (getEntryLoop opts parse key (pre ++ rest)).warnings := by
  induction pre with
  | nil => simp
  | cons L pre ih =>
    have hL : loaderSkips opts key L = true := hpre L (by simp)
    have hrec := ih (fun l hl => hpre l (by simp [hl]))
    have hstep := loop_cons_skip opts parse key L (pre ++ rest) hL
    refine ⟨hstep.1.trans hrec.1, ?_, ?_⟩
    · rw [List.cons_append, hstep.2.1, hrec.2.1, List.length_cons]
      omega
    · intro w hw
      exact hstep.2.2 w (hrec.2.2 w hw)

theorem loop_hit (opts : EnvKitOptions)
    (parse : JSValue → Except EnvError (IResult JSValue)) (key : String)
    (L : IConfigLoader) (rest : List IConfigLoader) (p : String)
    (v pv : JSValue)
    (hL : L.getValueResult key = .ok (.ok (some ⟨p, some v⟩)))
    (htruthy : jsTruthy v = true)
    (hparse : parse v = .ok (.ok pv)) :
    getEntryLoop opts parse key (L :: rest)
      = ⟨.returned (.ok ⟨some L.loaderType, some p, some pv⟩), 1, []⟩ := by
  simp [getEntryLoop, getLoaderEntry, hL, htruthy, hparse]

theorem loop_hit_parse_err (opts : EnvKitOptions)
    (parse : JSValue → Except EnvError (IResult JSValue)) (key : String)
    (L : IConfigLoader) (rest : List IConfigLoader) (p : String)
    (v : JSValue) (pe : EnvError)
    (hL : L.getValueResult key = .ok (.ok (some ⟨p, some v⟩)))
    (htruthy : jsTruthy v = true)
    (hparse : parse v = .ok (.err pe)) :
    getEntryLoop opts parse key (L :: rest) = ⟨.returned (.err pe), 1, []⟩ := by
  simp [getEntryLoop, getLoaderEntry, hL, htruthy, hparse]

theorem core_of_loop (kit : EnvKit) (key : String) (spec : KeySpec)
    (hschema : kit.schema key = some spec) :
    getEntryCore kit key
      = (let r := getEntryLoop kit.options spec.parser.parse key kit.loaders
         match r.out with
         | .thrown e => ⟨.error e, r.invoked, r.warnings⟩
         | .returned res => ⟨.ok res, r.invoked, r.warnings⟩
         | .fallthrough =>
           match resolveDefault spec.defaultValue with
           | some d =>
             ⟨.ok (.ok ⟨some "defaultValue", some ("key:" ++ key), some d⟩),
               r.invoked, r.warnings⟩
           | none =>
             if spec.notFoundError then
               ⟨.ok (.err (.variableLookup key
                   ("Missing required value for key: " ++ key))),
                 r.invoked, r.warnings⟩
             else
               ⟨.ok (.ok ⟨none, some key, none⟩), r.invoked, r.warnings⟩) := by
  unfold getEntryCore
  rw [hschema]

theorem getEntry_result (kit : EnvKit) (seen : String → Option String)
    (key : String) : (getEntry kit seen key).result = (getEntryCore kit key).result := rfl

theorem getEntry_invoked (kit : EnvKit) (seen : String → Option String)
    (key : String) : (getEntry kit seen key).invoked = (getEntryCore kit key).invoked := rfl

theorem getEntry_warnings (kit : EnvKit) (seen : String → Option String)
    (key : String) : (getEntry kit seen key).warnings = (getEntryCore kit key).warnings := rfl

theorem core_eq_of_out_returned (kit : EnvKit) (key : String) (spec : KeySpec)
    (res : IResult InferValueResult)
    (hschema : kit.schema key = some spec)
    (hout : (getEntryLoop kit.options spec.parser.parse key kit.loaders).out
      = .returned res) :
    getEntryCore kit key
      = ⟨.ok res,
          (getEntryLoop kit.options spec.parser.parse key kit.loaders).invoked,
          (getEntryLoop kit.options spec.parser.parse key kit.loaders).warnings⟩ := by
  rw [core_of_loop kit key spec hschema]
  cases hl : getEntryLoop kit.options spec.parser.parse key kit.loaders with
  | mk o i w =>
    rw [hl] at hout
    simp only at hout
    subst hout
    rfl

theorem core_eq_of_out_thrown (kit : EnvKit) (key : String) (spec : KeySpec)
    (e : EnvError)
    (hschema : kit.schema key = some spec)
    (hout : (getEntryLoop kit.options spec.parser.parse key kit.loaders).out
      = .thrown e) :
    getEntryCore kit key
      = ⟨.error e,
          (getEntryLoop kit.options spec.parser.parse key kit.loaders).invoked,
          (getEntryLoop kit.options spec.parser.parse key kit.loaders).warnings⟩ := by
  rw [core_of_loop kit key spec hschema]
  cases hl : getEntryLoop kit.options spec.parser.parse key kit.loaders with
  | mk o i w =>
    rw [hl] at hout
    simp only at hout
    subst hout
    rfl

theorem core_eq_of_out_fallthrough (kit : EnvKit) (key : String) (spec : KeySpec)
    (hschema : kit.schema key = some spec)
    (hout : (getEntryLoop kit.options spec.parser.parse key kit.loaders).out
      = .fallthrough) :
    (getEntryCore kit key).result
      = (match resolveDefault spec.defaultValue with
         | some d => .ok (.ok ⟨some "defaultValue", some ("key:" ++ key), some d⟩)
         | none =>
           if spec.notFoundError then
             .ok (.err (.variableLookup key
                 ("Missing required value for key: " ++ key)))
           else
             .ok (.ok ⟨none, some key, none⟩)) := by
  rw [core_of_loop kit key spec hschema]
  cases hl : getEntryLoop kit.options spec.parser.parse key kit.loaders with
  | mk o i w =>
    rw [hl] at hout
    simp only at hout
    subst hout
    cases hd : resolveDefault spec.defaultValue with
    | some d => rfl
    | none =>
      by_cases hnf : spec.notFoundError = true
      · simp [hnf]
      · simp [hnf]

/-! Concrete instances used by the witnesses. -/

/-- Render a primitive the way JavaScript string conversion would. -/
def jsToString : JSValue → String
  | .jsStr s => s
  | .jsNum n => toString n
  | .jsBool b => if b then "true" else "false"

/-- A simple string parser: parsing always succeeds with the raw value. -/
def stringParser : KeyParser :=
  ⟨fun v => .ok (.ok v), jsToString, fun v _ => jsToString v⟩

/-- A loader that never has a value. -/
def skipLoader : IConfigLoader := ⟨"dotenv", fun _ => .ok (.ok none)⟩

/-- A loader with a value for `PORT` only. -/
def envLoader : IConfigLoader :=
  ⟨"env", fun k =>
    if k == "PORT" then .ok (.ok (some ⟨"env:PORT", some (.jsStr "8080")⟩))
    else .ok (.ok none)⟩

/-- A later loader that would supply a value for every key. -/
def fileLoader : IConfigLoader :=
  ⟨"file", fun _ => .ok (.ok (some ⟨"settings.json", some (.jsStr "9999")⟩))⟩

def c1Spec : KeySpec := ⟨stringParser, none, false, .plain⟩

def c1Kit : EnvKit :=
  ⟨fun k => if k == "PORT" then some c1Spec else none,
    [skipLoader, envLoader, fileLoader], ⟨none, none, none⟩⟩

/-- C1: for every declared key and loader chain, if (after any number of
loaders that yield no value) a loader returns a defined, truthy raw value, then
`getEntry` parses it with the key spec's parser and returns a resolution result
carrying that loader's `loaderType` and its returned `path`; exactly the
loaders up to and including that one are invoked, so no later loader runs. -/
theorem c1_short_circuit (kit : EnvKit) (seen : String → Option String)
    (key : String) (spec : KeySpec) (pre post : List IConfigLoader)
    (L : IConfigLoader) (p : String) (v pv : JSValue)
    (hschema : kit.schema key = some spec)
    (hloaders : kit.loaders = pre ++ L :: post)
    (hpre : ∀ l ∈ pre, loaderSkips kit.options key l = true)
    (hL : L.getValueResult key = .ok (.ok (some ⟨p, some v⟩)))
    (htruthy : jsTruthy v = true)
    (hparse : spec.parser.parse v = .ok (.ok pv)) :
    (getEntry kit seen key).result
      = .ok (.ok ⟨some L.loaderType, some p, some pv⟩) ∧
    (getEntry kit seen key).invoked = pre.length + 1 := by
  have happ := loop_append_skip kit.options spec.parser.parse key pre (L :: post) hpre
  have hhit := loop_hit kit.options spec.parser.parse key L post p v pv hL htruthy hparse
  have hout : (getEntryLoop kit.options spec.parser.parse key kit.loaders).out
      = .returned (.ok ⟨some L.loaderType, some p, some pv⟩) := by
    rw [hloaders, happ.1, hhit]
  have hcore := core_eq_of_out_returned kit key spec _ hschema hout
  rw [getEntry_result, getEntry_invoked, hcore]
  refine ⟨rfl, ?_⟩
  show (getEntryLoop kit.options spec.parser.parse key kit.loaders).invoked = pre.length + 1
  rw [hloaders, happ.2.1, hhit]

/-- Witness for C1 at a concrete kit: `PORT` resolved by the second loader,
the third (which would return `9999`) never invoked. -/
theorem c1_short_circuit_witness :
    (getEntry c1Kit (fun _ => none) "PORT").result
      = .ok (.ok ⟨some "env", some "env:PORT", some (.jsStr "8080")⟩) ∧
    (getEntry c1Kit (fun _ => none) "PORT").invoked = 2 := by
  have h := c1_short_circuit c1Kit (fun _ => none) "PORT" c1Spec
    [skipLoader] [fileLoader] envLoader "env:PORT" (.jsStr "8080") (.jsStr "8080")
    rfl rfl
    (by intro l hl; rw [List.mem_singleton] at hl; subst hl; rfl)
    rfl rfl rfl
  exact ⟨h.1, h.2⟩

theorem loop_all_skip (opts : EnvKitOptions)
    (parse : JSValue → Except EnvError (IResult JSValue)) (key : String)
    (loaders : List IConfigLoader)
    (h : ∀ l ∈ loaders, loaderSkips opts key l = true) :
    (getEntryLoop opts parse key loaders).out = .fallthrough := by
  have := loop_append_skip opts parse key loaders [] h
  rw [List.append_nil] at this
  exact this.1

theorem core_components (kit : EnvKit) (key : String) (spec : KeySpec)
    (hs : kit.schema key = some spec) :
    (getEntryCore kit key).invoked
      = (getEntryLoop kit.options spec.parser.parse key kit.loaders).invoked ∧
    (getEntryCore kit key).warnings
      = (getEntryLoop kit.options spec.parser.parse key kit.loaders).warnings := by
  rw [core_of_loop kit key spec hs]
  cases hl : getEntryLoop kit.options spec.parser.parse key kit.loaders with
  | mk o i w =>
    cases o with
    | thrown e => exact ⟨rfl, rfl⟩
    | returned res => exact ⟨rfl, rfl⟩
    | fallthrough =>
      cases resolveDefault spec.defaultValue with
      | some d => exact ⟨rfl, rfl⟩
      | none =>
        by_cases hnf : spec.notFoundError = true
        · simp [hnf]
        · simp [hnf]

def c2Spec : KeySpec := ⟨stringParser, some (some (.jsStr "4637")), false, .plain⟩

def c2Kit : EnvKit :=
  ⟨fun k => if k == "PORT" then some c2Spec else none, [skipLoader], ⟨none, none, none⟩⟩

/-- C2: when every loader in the chain yields no value, the outcome of
`getEntry` is determined by the key spec alone: a configured default (resolved
at call time) gives `Ok` with `loaderType = "defaultValue"` and
`path = "key:<name>"`; otherwise `notFoundError = true` gives a missing
required value error naming the key; otherwise a soft-missing `Ok` with
`value = undefined`. -/
theorem c2_default_required_soft (kit : EnvKit) (seen : String → Option String)
    (key : String) (spec : KeySpec)
    (hschema : kit.schema key = some spec)
    (hnone : ∀ l ∈ kit.loaders, loaderSkips kit.options key l = true) :
    (getEntry kit seen key).result
      = (match resolveDefault spec.defaultValue with
         | some d => .ok (.ok ⟨some "defaultValue", some ("key:" ++ key), some d⟩)
         | none =>
           if spec.notFoundError then
             .ok (.err (.variableLookup key
                 ("Missing required value for key: " ++ key)))
           else
             .ok (.ok ⟨none, some key, none⟩)) := by
  rw [getEntry_result]
  exact core_eq_of_out_fallthrough kit key spec hschema
    (loop_all_skip kit.options spec.parser.parse key kit.loaders hnone)

/-- Witness for C2: a kit whose only loader has no value and whose key spec
carries default `"4637"` resolves `PORT` from the default, with
`loaderType = "defaultValue"` and `path = "key:PORT"`. -/
theorem c2_default_required_soft_witness :
    (getEntry c2Kit (fun _ => none) "PORT").result
      = .ok (.ok ⟨some "defaultValue", some "key:PORT", some (.jsStr "4637")⟩) := by
  have h := c2_default_required_soft c2Kit (fun _ => none) "PORT" c2Spec rfl
    (by
      intro l hl
      rw [show c2Kit.loaders = [skipLoader] from rfl, List.mem_singleton] at hl
      subst hl
      rfl)
  exact h

theorem loop_err_throws (opts : EnvKitOptions)
    (parse : JSValue → Except EnvError (IResult JSValue)) (key : String)
    (L : IConfigLoader) (rest : List IConfigLoader) (e : EnvError)
    (hmode : opts.loaderError = some .throws)
    (hL : L.getValueResult key = .ok (.err e)) :
    getEntryLoop opts parse key (L :: rest) = ⟨.returned (.err e), 1, []⟩ := by
  simp [getEntryLoop, getLoaderEntry, hL, hmode]

theorem loaderError_beq_false (opts : EnvKitOptions)
    (h : opts.loaderError ≠ some .throws) :
    (opts.loaderError == some .throws) = false := by
  cases hm : opts.loaderError with
  | none => rfl
  | some m =>
    cases m with
    | throws => exact absurd hm h
    | log => rfl

theorem loop_err_log (opts : EnvKitOptions)
    (parse : JSValue → Except EnvError (IResult JSValue)) (key : String)
    (L : IConfigLoader) (rest : List IConfigLoader) (e : EnvError)
    (hmode : opts.loaderError ≠ some .throws)
    (hL : L.getValueResult key = .ok (.err e)) :
    getEntryLoop opts parse key (L :: rest)
      = ⟨(getEntryLoop opts parse key rest).out,
         (getEntryLoop opts parse key rest).invoked + 1,
         ("Loader error: " ++ key ++ " " ++ errMessage e)
           :: (getEntryLoop opts parse key rest).warnings⟩ := by
  have hb := loaderError_beq_false opts hmode
  simp [getEntryLoop, getLoaderEntry, hL, hb]

theorem core_result_congr (kit kit' : EnvKit) (key : String) (spec : KeySpec)
    (hs : kit.schema key = some spec) (hs' : kit'.schema key = some spec)
    (hout : (getEntryLoop kit.options spec.parser.parse key kit.loaders).out
          = (getEntryLoop kit'.options spec.parser.parse key kit'.loaders).out) :
    (getEntryCore kit key).result = (getEntryCore kit' key).result := by
  rw [core_of_loop kit key spec hs, core_of_loop kit' key spec hs']
  cases h1 : getEntryLoop kit.options spec.parser.parse key kit.loaders with
  | mk o i w =>
    cases h2 : getEntryLoop kit'.options spec.parser.parse key kit'.loaders with
    | mk o' i' w' =>
      rw [h1, h2] at hout
      simp only at hout
      subst hout
      cases o with
      | thrown e => rfl
      | returned res => rfl
      | fallthrough =>
        cases resolveDefault spec.defaultValue with
        | some d => rfl
        | none =>
          by_cases hnf : spec.notFoundError = true
          · simp [hnf]
          · simp [hnf]

def c3ErrLoader : IConfigLoader := ⟨"broken", fun _ => .ok (.err (.generic "io down"))⟩

def c3KitThrows : EnvKit :=
  ⟨fun k => if k == "PORT" then some c1Spec else none,
    [c3ErrLoader, fileLoader], ⟨none, none, some .throws⟩⟩

/-- C3: a loader-level failure (an `Err` from `getValueResult`) aborts the
whole lookup with that error under `loaderError = "throws"`, never consulting
later loaders; under any other mode (including the default) it is logged as a
warning, treated as no value from that loader, and iteration continues — the
lookup behaves exactly as if that loader were removed from the chain, with one
extra loader invocation. -/
theorem c3_loader_error_modes (kit : EnvKit) (seen : String → Option String)
    (key : String) (spec : KeySpec) (pre post : List IConfigLoader)
    (L : IConfigLoader) (e : EnvError)
    (hschema : kit.schema key = some spec)
    (hloaders : kit.loaders = pre ++ L :: post)
    (hpre : ∀ l ∈ pre, loaderSkips kit.options key l = true)
    (hL : L.getValueResult key = .ok (.err e)) :
    (kit.options.loaderError = some .throws →
      (getEntry kit seen key).result = .ok (.err e) ∧
      (getEntry kit seen key).invoked = pre.length + 1) ∧
    (kit.options.loaderError ≠ some .throws →
      (getEntry kit seen key).result
        = (getEntry ⟨kit.schema, pre ++ post, kit.options⟩ seen key).result ∧
      (getEntry kit seen key).invoked
        = (getEntry ⟨kit.schema, pre ++ post, kit.options⟩ seen key).invoked + 1 ∧
      ("Loader error: " ++ key ++ " " ++ errMessage e)
        ∈ (getEntry kit seen key).warnings) := by
  have happ := loop_append_skip kit.options spec.parser.parse key pre (L :: post) hpre
  constructor
  · intro hmode
    have hhit := loop_err_throws kit.options spec.parser.parse key L post e hmode hL
    have hout : (getEntryLoop kit.options spec.parser.parse key kit.loaders).out
        = .returned (.err e) := by rw [hloaders, happ.1, hhit]
    have hcore := core_eq_of_out_returned kit key spec _ hschema hout
    rw [getEntry_result, getEntry_invoked, hcore]
    refine ⟨rfl, ?_⟩
    show (getEntryLoop kit.options spec.parser.parse key kit.loaders).invoked
        = pre.length + 1
    rw [hloaders, happ.2.1, hhit]
  · intro hmode
    have hlog := loop_err_log kit.options spec.parser.parse key L post e hmode hL
    have happ' := loop_append_skip kit.options spec.parser.parse key pre post hpre
    have houts : (getEntryLoop kit.options spec.parser.parse key kit.loaders).out
        = (getEntryLoop kit.options spec.parser.parse key (pre ++ post)).out := by
      rw [hloaders, happ.1, hlog, happ'.1]
    refine ⟨?_, ?_, ?_⟩
    · rw [getEntry_result, getEntry_result]
      exact core_result_congr kit ⟨kit.schema, pre ++ post, kit.options⟩ key spec
        hschema hschema houts
    · rw [getEntry_invoked, getEntry_invoked,
        (core_components kit key spec hschema).1,
        (core_components ⟨kit.schema, pre ++ post, kit.options⟩ key spec hschema).1]
      show (getEntryLoop kit.options spec.parser.parse key kit.loaders).invoked
        = (getEntryLoop kit.options spec.parser.parse key (pre ++ post)).invoked + 1
      rw [hloaders, happ.2.1, hlog, happ'.2.1]
      simp [Nat.add_assoc]
    · rw [getEntry_warnings, (core_components kit key spec hschema).2, hloaders]
      apply happ.2.2
      rw [hlog]
      exact List.mem_cons_self _ _

/-- Witness for C3 (throws mode): the first loader fails, the second loader
(which would return a valid value) is never reached, and the call fails with
the first loader's error. -/
theorem c3_loader_error_modes_witness :
    (getEntry c3KitThrows (fun _ => none) "PORT").result
      = .ok (.err (.generic "io down")) ∧
    (getEntry c3KitThrows (fun _ => none) "PORT").invoked = 1 := by
  have h := c3_loader_error_modes c3KitThrows (fun _ => none) "PORT" c1Spec
    [] [fileLoader] c3ErrLoader (.generic "io down") rfl rfl (by simp) rfl
  exact h.1 rfl

/-- A boolean parser that fails on anything but `"true"`/`"false"`/booleans. -/
def strictBoolParser : KeyParser :=
  ⟨fun v =>
    match v with
    | .jsStr "true" => .ok (.ok (.jsBool true))
    | .jsStr "false" => .ok (.ok (.jsBool false))
    | .jsBool b => .ok (.ok (.jsBool b))
    | w => .ok (.err (.generic ("Invalid boolean: " ++ jsToString w))),
   jsToString, fun v _ => jsToString v⟩

/-- A loader whose raw value for every key is the string `"yes"`. -/
def yesLoader : IConfigLoader :=
  ⟨"env", fun _ => .ok (.ok (some ⟨"env:DEBUG", some (.jsStr "yes")⟩))⟩

def c4Spec : KeySpec := ⟨strictBoolParser, some (some (.jsBool true)), false, .plain⟩

def c4Kit : EnvKit :=
  ⟨fun k => if k == "DEBUG" then some c4Spec else none,
    [yesLoader, fileLoader], ⟨none, none, none⟩⟩

/-- C4: when a loader supplies a defined truthy raw value and the key spec's
parser rejects it, `getEntry` returns the parse error as the overall outcome,
for every `loaderError` mode (the kit's options are unconstrained) and every
configured default (the spec is unconstrained): no later loader is consulted
and the default is not substituted. -/
theorem c4_parse_error_fatal (kit : EnvKit) (seen : String → Option String)
    (key : String) (spec : KeySpec) (pre post : List IConfigLoader)
    (L : IConfigLoader) (p : String) (v : JSValue) (pe : EnvError)
    (hschema : kit.schema key = some spec)
    (hloaders : kit.loaders = pre ++ L :: post)
    (hpre : ∀ l ∈ pre, loaderSkips kit.options key l = true)
    (hL : L.getValueResult key = .ok (.ok (some ⟨p, some v⟩)))
    (htruthy : jsTruthy v = true)
    (hparse : spec.parser.parse v = .ok (.err pe)) :
    (getEntry kit seen key).result = .ok (.err pe) ∧
    (getEntry kit seen key).invoked = pre.length + 1 := by
  have happ := loop_append_skip kit.options spec.parser.parse key pre (L :: post) hpre
  have hhit := loop_hit_parse_err kit.options spec.parser.parse key L post p v pe hL htruthy hparse
  have hout : (getEntryLoop kit.options spec.parser.parse key kit.loaders).out
      = .returned (.err pe) := by
    rw [hloaders, happ.1, hhit]
  have hcore := core_eq_of_out_returned kit key spec _ hschema hout
  rw [getEntry_result, getEntry_invoked, hcore]
  refine ⟨rfl, ?_⟩
  show (getEntryLoop kit.options spec.parser.parse key kit.loaders).invoked
      = pre.length + 1
  rw [hloaders, happ.2.1, hhit]

/-- Witness for C4: the raw value `"yes"` fails boolean parsing; the lookup
fails with the parse error even though a default (`true`) is configured and a
later loader would have a value; only the first loader is invoked. -/
theorem c4_parse_error_fatal_witness :
    (getEntry c4Kit (fun _ => none) "DEBUG").result
      = .ok (.err (.generic "Invalid boolean: yes")) ∧
    (getEntry c4Kit (fun _ => none) "DEBUG").invoked = 1 := by
  have h := c4_parse_error_fatal c4Kit (fun _ => none) "DEBUG" c4Spec
    [] [fileLoader] yesLoader "env:DEBUG" (.jsStr "yes") (.generic "Invalid boolean: yes")
    rfl rfl (by simp) rfl rfl rfl
  exact h

/-- A loader returning the defined but falsy raw value `""` for every key. -/
def emptyStrLoader : IConfigLoader :=
  ⟨"dotenv", fun _ => .ok (.ok (some ⟨".env", some (.jsStr "")⟩))⟩

def c10Kit : EnvKit :=
  ⟨fun k => if k == "PORT" then some c1Spec else none,
    [emptyStrLoader, fileLoader], ⟨none, none, none⟩⟩

def c10KitRest : EnvKit :=
  ⟨fun k => if k == "PORT" then some c1Spec else none,
    [fileLoader], ⟨none, none, none⟩⟩

/-- C10: a loader result whose value is defined but falsy (`false`, `0`, `""`)
is treated exactly like an absent value: for every parser the loop outcome on
the chain equals the outcome on the chain without that loader (so the parser is
never invoked on the falsy value), and `getEntry` behaves as if the loader were
removed, with one extra loader invocation, falling through to the
default / required / soft-missing handling when nothing later is truthy. -/
theorem c10_falsy_like_absent (kit : EnvKit) (seen : String → Option String)
    (key : String) (spec : KeySpec) (L : IConfigLoader)
    (rest : List IConfigLoader) (p : String) (v : JSValue)
    (hschema : kit.schema key = some spec)
    (hloaders : kit.loaders = L :: rest)
    (hL : L.getValueResult key = .ok (.ok (some ⟨p, some v⟩)))
    (hfalsy : jsTruthy v = false) :
    (∀ parse, (getEntryLoop kit.options parse key (L :: rest)).out
      = (getEntryLoop kit.options parse key rest).out) ∧
    (getEntry kit seen key).result
      = (getEntry ⟨kit.schema, rest, kit.options⟩ seen key).result ∧
    (getEntry kit seen key).invoked
      = (getEntry ⟨kit.schema, rest, kit.options⟩ seen key).invoked + 1 := by
  have hskip : loaderSkips kit.options key L = true := by
    unfold loaderSkips
    rw [hL]
    simp [hfalsy]
  refine ⟨?_, ?_, ?_⟩
  · intro parse
    exact (loop_cons_skip kit.options parse key L rest hskip).1
  · rw [getEntry_result, getEntry_result]
    refine core_result_congr kit ⟨kit.schema, rest, kit.options⟩ key spec hschema hschema ?_
    rw [hloaders]
    exact (loop_cons_skip kit.options spec.parser.parse key L rest hskip).1
  · rw [getEntry_invoked, getEntry_invoked,
      (core_components kit key spec hschema).1,
      (core_components ⟨kit.schema, rest, kit.options⟩ key spec hschema).1]
    show (getEntryLoop kit.options spec.parser.parse key kit.loaders).invoked
      = (getEntryLoop kit.options spec.parser.parse key rest).invoked + 1
    rw [hloaders]
    exact (loop_cons_skip kit.options spec.parser.parse key L rest hskip).2.1

/-- Witness for C10: a loader returning `""` is skipped; the chain resolves
from the next loader exactly as if the falsy loader were absent. -/
theorem c10_falsy_like_absent_witness :
    (∀ parse, (getEntryLoop c10Kit.options parse "PORT" [emptyStrLoader, fileLoader]).out
      = (getEntryLoop c10Kit.options parse "PORT" [fileLoader]).out) ∧
    (getEntry c10Kit (fun _ => none) "PORT").result
      = (getEntry ⟨c10Kit.schema, [fileLoader], c10Kit.options⟩ (fun _ => none) "PORT").result ∧
    (getEntry c10Kit (fun _ => none) "PORT").invoked
      = (getEntry ⟨c10Kit.schema, [fileLoader], c10Kit.options⟩ (fun _ => none) "PORT").invoked + 1 := by
  exact c10_falsy_like_absent c10Kit (fun _ => none) "PORT" c1Spec emptyStrLoader
    [fileLoader] ".env" (.jsStr "") rfl rfl rfl rfl

/-- A loader that throws at the host level instead of returning a result. -/
def throwingLoader : IConfigLoader := ⟨"bomb", fun _ => .error (.generic "boom")⟩

def c7Kit : EnvKit :=
  ⟨fun k => if k == "HOST" then some c1Spec else none,
    [throwingLoader], ⟨none, none, none⟩⟩

/-- C7 fails as stated: the engine has no try/catch around loader (or parser)
invocations, so a loader that throws at the host level — rather than returning
an `Err` result — propagates out of `getEntry` and `get` as an uncaught throw
(the `.error` of the outer `Except`), not as a returned `IResult`. -/
theorem c7_counterexample :
    (getEntry c7Kit (fun _ => none) "HOST").result = .error (.generic "boom") ∧
    get c7Kit (fun _ => none) "HOST" = .error (.generic "boom") := by
  exact ⟨rfl, rfl⟩

theorem loop_no_thrown (opts : EnvKitOptions)
    (parse : JSValue → Except EnvError (IResult JSValue)) (key : String)
    (loaders : List IConfigLoader)
    (hl : ∀ l ∈ loaders, ∃ r, l.getValueResult key = .ok r)
    (hp : ∀ v, ∃ r, parse v = .ok r) :
    ∀ e, (getEntryLoop opts parse key loaders).out ≠ .thrown e := by
  induction loaders with
  | nil => intro e; simp [getEntryLoop]
  | cons L rest ih =>
    intro e
    have ihr := ih (fun l hmem => hl l (List.mem_cons_of_mem L hmem))
    obtain ⟨r, hr⟩ := hl L (List.mem_cons_self L rest)
    cases r with
    | err e' =>
      by_cases hm : (opts.loaderError == some .throws) = true
      · simp [getEntryLoop, getLoaderEntry, hr, hm]
      · rw [Bool.not_eq_true] at hm
        simp [getEntryLoop, getLoaderEntry, hr, hm]
        exact ihr e
    | ok d =>
      cases d with
      | none =>
        simp [getEntryLoop, getLoaderEntry, hr]
        exact ihr e
      | some lv =>
        obtain ⟨p, val⟩ := lv
        cases val with
        | none =>
          simp [getEntryLoop, getLoaderEntry, hr]
          exact ihr e
        | some v =>
          by_cases ht : jsTruthy v = true
          · obtain ⟨pr, hpr⟩ := hp v
            cases pr with
            | err pe => simp [getEntryLoop, getLoaderEntry, hr, ht, hpr]
            | ok pv => simp [getEntryLoop, getLoaderEntry, hr, ht, hpr]
          · rw [Bool.not_eq_true] at ht
            simp [getEntryLoop, getLoaderEntry, hr, ht]
            exact ihr e

/-- C7 amended: provided every loader invocation and every parser invocation
returns (represents its failures as `Err` results rather than throwing),
`getEntry`, `get` and `getString` always hand the caller an explicit
success/failure `IResult` and never propagate a throw. (As stated the claim is
false: the engine does not catch host-level throws — see the counterexample.) -/
theorem c7_amended_result_totality (kit : EnvKit) (seen : String → Option String)
    (key : String)
    (hloaders : ∀ l ∈ kit.loaders, ∃ r, l.getValueResult key = .ok r)
    (hparse : ∀ sp, kit.schema key = some sp → ∀ v, ∃ r, sp.parser.parse v = .ok r) :
    (∃ r, (getEntry kit seen key).result = .ok r) ∧
    (∃ r, get kit seen key = .ok r) ∧
    (∃ r, getString kit seen key = .ok r) := by
  have hok : ∃ r, (getEntry kit seen key).result = .ok r := by
    rw [getEntry_result]
    cases hs : kit.schema key with
    | none =>
      refine ⟨.err (.variableLookup key ("Key \"" ++ key ++ "\" is not defined in schema")), ?_⟩
      unfold getEntryCore
      rw [hs]
    | some spec =>
      have hnothrow := loop_no_thrown kit.options spec.parser.parse key kit.loaders
        hloaders (hparse spec hs)
      rw [core_of_loop kit key spec hs]
      cases hlp : getEntryLoop kit.options spec.parser.parse key kit.loaders with
      | mk o i w =>
        cases o with
        | thrown e =>
          exfalso
          exact hnothrow e (by rw [hlp])
        | returned res => exact ⟨res, rfl⟩
        | fallthrough =>
          cases resolveDefault spec.defaultValue with
          | some d => exact ⟨_, rfl⟩
          | none =>
            by_cases hnf : spec.notFoundError = true
            · simp only [hnf]
              exact ⟨_, rfl⟩
            · rw [Bool.not_eq_true] at hnf
              simp only [hnf]
              exact ⟨_, rfl⟩
  obtain ⟨r, hr⟩ := hok
  refine ⟨⟨r, hr⟩, ?_, ?_⟩
  · unfold get
    rw [hr]
    cases r with
    | err e => exact ⟨_, rfl⟩
    | ok data => exact ⟨_, rfl⟩
  · unfold getString
    rw [hr]
    cases r with
    | err e => exact ⟨_, rfl⟩
    | ok data => exact ⟨_, rfl⟩

/-- Witness for the amended C7 at a concrete kit whose loaders and parser all
return results. -/
theorem c7_amended_result_totality_witness :
    (∃ r, (getEntry c1Kit (fun _ => none) "PORT").result = .ok r) ∧
    (∃ r, get c1Kit (fun _ => none) "PORT" = .ok r) ∧
    (∃ r, getString c1Kit (fun _ => none) "PORT" = .ok r) := by
  refine c7_amended_result_totality c1Kit (fun _ => none) "PORT" ?_ ?_
  · intro l hl
    rw [show c1Kit.loaders = [skipLoader, envLoader, fileLoader] from rfl] at hl
    simp only [List.mem_cons, List.mem_singleton, List.not_mem_nil, or_false] at hl
    rcases hl with h | h | h
    · subst h; exact ⟨_, rfl⟩
    · subst h; exact ⟨_, rfl⟩
    · subst h; exact ⟨_, rfl⟩
  · intro sp hsp v
    rw [show c1Kit.schema "PORT" = some c1Spec from rfl] at hsp
    injection hsp with h
    subst h
    exact ⟨_, rfl⟩

theorem loggingMode_beq_false (opts : EnvKitOptions)
    (h : opts.loggingMode ≠ some .always) :
    (opts.loggingMode == some .always) = false := by
  cases hm : opts.loggingMode with
  | none => rfl
  | some m =>
    cases m with
    | always => exact absurd hm h
    | single => rfl

theorem getEntry_infoLog (kit : EnvKit) (seen : String → Option String)
    (key : String) :
    (getEntry kit seen key).infoLog = (printLines kit seen key).2 := rfl

theorem getEntry_seenLog (kit : EnvKit) (seen : String → Option String)
    (key : String) :
    (getEntry kit seen key).seenLog = (printLines kit seen key).1 := rfl

theorem printLog_seen_key (opts : EnvKitOptions) (key : String)
    (data : InferValueResult) (spec : KeySpec) (seen : String → Option String) :
    (printLog opts key data spec seen).1 key
      = some (renderLog opts key data spec) := by
  unfold printLog
  by_cases h : (seen key == some (renderLog opts key data spec)) = true
  · by_cases hm : (opts.loggingMode == some .always) = true
    · simp only [hm, Bool.true_or, if_true]
      simp
    · rw [Bool.not_eq_true] at hm
      have heq : seen key = some (renderLog opts key data spec) := eq_of_beq h
      simp [hm, h, heq]
  · rw [Bool.not_eq_true] at h
    simp only [h, Bool.not_false, Bool.or_true, if_true]
    simp

theorem printLog_second_empty (opts : EnvKitOptions) (key : String)
    (data : InferValueResult) (spec : KeySpec) (seen : String → Option String)
    (hmode : (opts.loggingMode == some .always) = false)
    (hseen : seen key = some (renderLog opts key data spec)) :
    printLog opts key data spec seen = (seen, []) := by
  unfold printLog
  rw [hseen, hmode]
  simp

theorem printLog_first_emit (opts : EnvKitOptions) (key : String)
    (data : InferValueResult) (spec : KeySpec) (seen : String → Option String)
    (hmode : (opts.loggingMode == some .always) = false) :
    (printLog opts key data spec seen).2
      = (if seen key == some (renderLog opts key data spec) then []
         else [renderLog opts key data spec]) := by
  unfold printLog
  rw [hmode]
  by_cases h : (seen key == some (renderLog opts key data spec)) = true
  · simp [h]
  · rw [Bool.not_eq_true] at h
    simp [h]

def c8Kit : EnvKit :=
  ⟨fun k => if k == "PORT" then some c1Spec else none,
    [envLoader], ⟨none, none, none⟩⟩

/-- C8: resolution is deterministic — a second `getEntry` call with unchanged
loader outputs returns the identical result — and, when `loggingMode` is not
`"always"` (the default `"single"` behaviour), the dedup logger emits nothing
on the second call; on any call a line is emitted exactly when the rendered
line differs from (or is absent from) the seen-log map entry for the key, and
after an `Ok` resolution the map entry equals the rendered line. -/
theorem c8_idempotent_dedup (kit : EnvKit) (seen : String → Option String)
    (key : String)
    (hmode : kit.options.loggingMode ≠ some .always) :
    (getEntry kit (getEntry kit seen key).seenLog key).result
      = (getEntry kit seen key).result ∧
    (getEntry kit (getEntry kit seen key).seenLog key).infoLog = [] ∧
    (∀ data spec, kit.schema key = some spec →
      (getEntryCore kit key).result = .ok (.ok data) →
      (getEntry kit seen key).infoLog
        = (if seen key == some (renderLog kit.options key data spec) then []
           else [renderLog kit.options key data spec]) ∧
      (getEntry kit seen key).seenLog key
        = some (renderLog kit.options key data spec)) := by
  have hmb := loggingMode_beq_false kit.options hmode
  refine ⟨rfl, ?_, ?_⟩
  · rw [getEntry_infoLog]
    unfold printLines
    cases hres : (getEntryCore kit key).result with
    | error e => simp [hres]
    | ok r =>
      cases r with
      | err e => simp [hres]
      | ok data =>
        cases hs : kit.schema key with
        | none => simp [hres, hs]
        | some spec =>
          have h1 : (getEntry kit seen key).seenLog key
              = some (renderLog kit.options key data spec) := by
            rw [getEntry_seenLog]
            unfold printLines
            rw [hres, hs]
            exact printLog_seen_key kit.options key data spec seen
          simp only [hres, hs]
          rw [printLog_second_empty kit.options key data spec _ hmb h1]
  · intro data spec hs hres
    constructor
    · rw [getEntry_infoLog]
      unfold printLines
      rw [hres, hs]
      exact printLog_first_emit kit.options key data spec seen hmb
    · rw [getEntry_seenLog]
      unfold printLines
      rw [hres, hs]
      exact printLog_seen_key kit.options key data spec seen

/-- Witness for C8 at a concrete kit: the first call emits the rendered line,
the repeated call emits nothing and returns the identical result. -/
theorem c8_idempotent_dedup_witness :
    (getEntry c8Kit (getEntry c8Kit (fun _ => none) "PORT").seenLog "PORT").result
      = (getEntry c8Kit (fun _ => none) "PORT").result ∧
    (getEntry c8Kit (getEntry c8Kit (fun _ => none) "PORT").seenLog "PORT").infoLog
      = [] ∧
    (getEntry c8Kit (fun _ => none) "PORT").infoLog
      = ["ConfigVariables[env]: PORT [8080] from env:PORT"] := by
  have h := c8_idempotent_dedup c8Kit (fun _ => none) "PORT" (by intro h; cases h)
  refine ⟨h.1, h.2.1, ?_⟩
  have h3 := h.2.2 ⟨some "env", some "env:PORT", some (.jsStr "8080")⟩ c1Spec rfl rfl
  rw [h3.1]
  rfl

def c9Spec : KeySpec := ⟨strictBoolParser, some (some (.jsBool false)), false, .plain⟩

def c9Kit : EnvKit :=
  ⟨fun k => if k == "DEBUG" then some c9Spec else none, [], ⟨none, none, none⟩⟩

/-- C9 exhibits a code bug at a falsy present value: with default `false` the
resolution result carries the present value `false`, yet `getString` — which
computes `Ok(data.value && parser.toString(data.value))` — returns the raw
boolean `false` instead of the parser's rendering `"false"` (and instead of the
`string | undefined` its signature declares), because JavaScript `&&` yields
the falsy left operand. -/
theorem c9_getString_falsy_bug :
    (getEntry c9Kit (fun _ => none) "DEBUG").result
      = .ok (.ok ⟨some "defaultValue", some "key:DEBUG", some (.jsBool false)⟩) ∧
    getString c9Kit (fun _ => none) "DEBUG" = .ok (.ok (some (.jsBool false))) ∧
    JSValue.jsBool false ≠ .jsStr (strictBoolParser.toStr (.jsBool false)) := by
  exact ⟨rfl, rfl, by decide⟩

theorem getRawValue_cached (opts : AzOptions) (ksm : String → Option String)
    (lookupKey secretKey : String) (p : Nat) (s : AzState)
    (hmap : ksm lookupKey = some secretKey)
    (hne : (secretKey == "") = false)
    (hdis : opts.disabled = false)
    (hc : s.cache secretKey = some p) :
    getRawValue opts ksm lookupKey s = (.promise p, s) := by
  unfold getRawValue
  rw [hmap]
  simp [hne, hdis, hc]

theorem repeatLookups_cached (opts : AzOptions) (ksm : String → Option String)
    (lookupKey secretKey : String) (p : Nat) (n : Nat) (s : AzState)
    (hmap : ksm lookupKey = some secretKey)
    (hne : (secretKey == "") = false)
    (hdis : opts.disabled = false)
    (hc : s.cache secretKey = some p) :
    repeatLookups opts ksm lookupKey n s = (List.replicate n (.promise p), s) := by
  induction n with
  | zero => rfl
  | succ n ih =>
    have hr := getRawValue_cached opts ksm lookupKey secretKey p s hmap hne hdis hc
    simp [repeatLookups, hr, ih, List.replicate_succ]

def azOpts : AzOptions := ⟨"https://myvault.vault.azure.net", false, none⟩

def azKsm : String → Option String :=
  fun k => if k == "API" then some "backend-url" else none

/-- Initial cache state: nothing cached, no remote calls yet. -/
def azS0 : AzState := ⟨0, fun _ => none, [], [], 0, []⟩

/-- A state whose cache holds the live promise 7 for `backend-url`. -/
def azSLive : AzState :=
  ⟨0, fun k => if k == "backend-url" then some 7 else none, [], [], 8, ["backend-url"]⟩

/-- C5: the single-flight cache serves at most one live operation per remote
key: a `getRawValue` call for a key with a live cache entry returns that
entry's promise and leaves the state — in particular the list of started
remote calls — unchanged; and any number `N + 1` of lookups for the same key
issued against an empty entry (before the first settles or is evicted) all
return the one promise registered by the first lookup and start exactly one
underlying remote call. -/
theorem c5_single_flight (opts : AzOptions) (ksm : String → Option String)
    (lookupKey secretKey : String) (s : AzState) (N : Nat)
    (hmap : ksm lookupKey = some secretKey)
    (hne : (secretKey == "") = false)
    (hdis : opts.disabled = false) :
    (∀ p, s.cache secretKey = some p →
      getRawValue opts ksm lookupKey s = (.promise p, s)) ∧
    (s.cache secretKey = none →
      (∀ r ∈ (repeatLookups opts ksm lookupKey (N + 1) s).1,
        r = .promise s.nextId) ∧
      (repeatLookups opts ksm lookupKey (N + 1) s).2.remoteCalls
        = s.remoteCalls ++ [secretKey]) := by
  constructor
  · intro p hc
    exact getRawValue_cached opts ksm lookupKey secretKey p s hmap hne hdis hc
  · intro hc
    have h1 : getRawValue opts ksm lookupKey s
        = (.promise s.nextId,
           { s with
             cache := fun k => if k == secretKey then some s.nextId else s.cache k,
             nextId := s.nextId + 1,
             remoteCalls := s.remoteCalls ++ [secretKey] }) := by
      unfold getRawValue
      rw [hmap]
      simp [hne, hdis, hc]
    have hrest := repeatLookups_cached opts ksm lookupKey secretKey s.nextId N
      { s with
        cache := fun k => if k == secretKey then some s.nextId else s.cache k,
        nextId := s.nextId + 1,
        remoteCalls := s.remoteCalls ++ [secretKey] }
      hmap hne hdis (by simp)
    constructor
    · intro r hr
      rw [show repeatLookups opts ksm lookupKey (N + 1) s
          = (let rs := getRawValue opts ksm lookupKey s
             let rest := repeatLookups opts ksm lookupKey N rs.2
             (rs.1 :: rest.1, rest.2)) from rfl] at hr
      rw [h1] at hr
      simp only [hrest] at hr
      rcases List.mem_cons.1 hr with h | h
      · exact h
      · exact List.eq_of_mem_replicate h
    · rw [show repeatLookups opts ksm lookupKey (N + 1) s
          = (let rs := getRawValue opts ksm lookupKey s
             let rest := repeatLookups opts ksm lookupKey N rs.2
             (rs.1 :: rest.1, rest.2)) from rfl]
      rw [h1]
      simp only [hrest]

/-- Witness for C5: a live entry (promise 7) is reused with no new remote
call; three lookups against an empty cache all return promise 0 and start
exactly one remote call for `backend-url`. -/
theorem c5_single_flight_witness :
    getRawValue azOpts azKsm "API" azSLive = (.promise 7, azSLive) ∧
    (∀ r ∈ (repeatLookups azOpts azKsm "API" 3 azS0).1, r = .promise 0) ∧
    (repeatLookups azOpts azKsm "API" 3 azS0).2.remoteCalls = ["backend-url"] := by
  refine ⟨?_, ?_, ?_⟩
  · exact (c5_single_flight azOpts azKsm "API" "backend-url" azSLive 0 rfl rfl rfl).1 7 rfl
  · exact ((c5_single_flight azOpts azKsm "API" "backend-url" azS0 2 rfl rfl rfl).2 rfl).1
  · exact ((c5_single_flight azOpts azKsm "API" "backend-url" azS0 2 rfl rfl rfl).2 rfl).2

/-- State after the remote call for `backend-url` (promise 7) failed at time 0:
the entry is still cached and a deletion is scheduled at `0 + 60000`. -/
def azSFail : AzState :=
  ⟨0, fun k => if k == "backend-url" then some 7 else none, [7],
    [("backend-url", 60000)], 8, ["backend-url"]⟩

/-- `azSFail` just before the backoff deadline. -/
def azSEarly : AzState :=
  ⟨59999, fun k => if k == "backend-url" then some 7 else none, [7],
    [("backend-url", 60000)], 8, ["backend-url"]⟩

/-- `azSFail` once the backoff deadline has been reached. -/
def azSLate : AzState :=
  ⟨60000, fun k => if k == "backend-url" then some 7 else none, [7],
    [("backend-url", 60000)], 8, ["backend-url"]⟩

/-- C6: when the registered operation for a key fails, the entry is kept: the
settlement only schedules an eviction `errExpireMs ?? 60000` ms later (keeping
cache and remote-call log unchanged); while the entry is cached every lookup
returns the same failed promise without a new remote call; the eviction timer
cannot fire before its deadline; and once it fires (deadline reached) the
entry is gone and the next lookup starts exactly one fresh remote call. -/
theorem c6_error_backoff (opts : AzOptions) (ksm : String → Option String)
    (lookupKey secretKey : String) (p : Nat) (s0 s : AzState) (dl : Nat)
    (hmap : ksm lookupKey = some secretKey)
    (hne : (secretKey == "") = false)
    (hdis : opts.disabled = false) :
    ((settleFailure opts secretKey p s0).cache = s0.cache ∧
      (settleFailure opts secretKey p s0).remoteCalls = s0.remoteCalls ∧
      (settleFailure opts secretKey p s0).timers
        = s0.timers ++ [(secretKey, s0.now + (opts.errExpireMs.getD 60000))]) ∧
    (s.cache secretKey = some p → p ∈ s.failedIds →
      getRawValue opts ksm lookupKey s = (.promise p, s)) ∧
    (s.now < dl → fireTimer secretKey dl s = s) ∧
    ((secretKey, dl) ∈ s.timers → dl ≤ s.now →
      (fireTimer secretKey dl s).cache secretKey = none ∧
      (getRawValue opts ksm lookupKey (fireTimer secretKey dl s)).1
        = .promise (fireTimer secretKey dl s).nextId ∧
      (getRawValue opts ksm lookupKey (fireTimer secretKey dl s)).2.remoteCalls
        = s.remoteCalls ++ [secretKey]) := by
  refine ⟨⟨rfl, rfl, rfl⟩, ?_, ?_, ?_⟩
  · intro hc _
    exact getRawValue_cached opts ksm lookupKey secretKey p s hmap hne hdis hc
  · intro hlt
    unfold fireTimer
    rw [if_neg]
    intro h
    exact absurd h.2 (Nat.not_le.2 hlt)
  · intro hmem hle
    have hfire : fireTimer secretKey dl s
        = { s with
            cache := fun k => if k == secretKey then none else s.cache k,
            timers := s.timers.erase (secretKey, dl) } := by
      unfold fireTimer
      rw [if_pos ⟨hmem, hle⟩]
    have hcache : (fireTimer secretKey dl s).cache secretKey = none := by
      rw [hfire]
      simp
    refine ⟨hcache, ?_, ?_⟩
    · unfold getRawValue
      rw [hmap]
      simp [hne, hdis, hcache]
    · unfold getRawValue
      rw [hmap]
      simp only [hne, Bool.false_eq_true, hdis, if_false, Bool.or_self, hcache]
      rw [hfire]

/-- Witness for C6: settling the failure at time 0 schedules eviction at
60000; a lookup against the cached failure returns promise 7 unchanged; the
timer does nothing at time 59999; at time 60000 it evicts, and the next lookup
starts exactly one new remote call. -/
theorem c6_error_backoff_witness :
    (settleFailure azOpts "backend-url" 7 azS0).timers = [("backend-url", 60000)] ∧
    getRawValue azOpts azKsm "API" azSFail = (.promise 7, azSFail) ∧
    fireTimer "backend-url" 60000 azSEarly = azSEarly ∧
    (fireTimer "backend-url" 60000 azSLate).cache "backend-url" = none ∧
    (getRawValue azOpts azKsm "API" (fireTimer "backend-url" 60000 azSLate)).1
      = .promise 8 ∧
    (getRawValue azOpts azKsm "API" (fireTimer "backend-url" 60000 azSLate)).2.remoteCalls
      = ["backend-url", "backend-url"] := by
  refine ⟨?_, ?_, ?_, ?_, ?_, ?_⟩
  · exact ((c6_error_backoff azOpts azKsm "API" "backend-url" 7 azS0 azS0 0
      rfl rfl rfl).1.2.2).trans rfl
  · exact (c6_error_backoff azOpts azKsm "API" "backend-url" 7 azS0 azSFail 0
      rfl rfl rfl).2.1 rfl (by decide)
  · exact (c6_error_backoff azOpts azKsm "API" "backend-url" 7 azS0 azSEarly 60000
      rfl rfl rfl).2.2.1 (by decide)
  · exact ((c6_error_backoff azOpts azKsm "API" "backend-url" 7 azS0 azSLate 60000
      rfl rfl rfl).2.2.2 (by decide) (by decide)).1
  · exact ((c6_error_backoff azOpts azKsm "API" "backend-url" 7 azS0 azSLate 60000
      rfl rfl rfl).2.2.2 (by decide) (by decide)).2.1
  · exact ((c6_error_backoff azOpts azKsm "API" "backend-url" 7 azS0 azSLate 60000
      rfl rfl rfl).2.2.2 (by decide) (by decide)).2.2

end EnvCore
